import Mathlib

/-!
Verification development for the AgenticMemory graph-memory engine.

Shallow embedding of:
- `agmem/multi_tenant.py` (tenant key resolution),
- `agmem/graph/falkordb_store.py` (wire-protocol decoding, store operations
  modelled at the level of their effective semantics on an abstract graph
  state, similarity search, cosine similarity),
- `agmem/graph/main.py` (orchestrator operations and its own cosine
  similarity).

Modelling conventions:
- Python floats are modelled as real numbers; vectors carried in data are
  rationals (every float is rational) and are cast to `ℝ` where the code
  does arithmetic with square roots.
- Python `datetime` values are modelled as integers (microseconds since the
  epoch): `isoformat`/`fromisoformat` round-trip at that precision, and the
  lexicographic order of equal-format ISO strings agrees with the numeric
  order, so `ORDER BY created_at DESC` is ordering by this integer.
- Metadata maps are string-keyed, string-valued association lists;
  `json.dumps`/`json.loads` on such dictionaries is a bijective pair, so the
  serialized property is modelled by the dictionary itself.
- The graph database is modelled as an explicit state (lists of entity
  nodes, relationship edges and episode nodes); each Cypher query the store
  issues is modelled by its effect on that state (MERGE-by-id = update all
  nodes with the id if any exists, else append; DETACH DELETE = remove the
  nodes and all incident edges).
-/

namespace AgMem

/-! ## Tenant identity (`agmem/multi_tenant.py`, `TenantId._build`) -/

/-- Types of tenant isolation (`TenantType` enum). -/
inductive TenantType where
  | user
  | agent
  | session
  | combined
deriving DecidableEq, Repr

/-- Python truthiness of an `Optional[str]`: `None` and the empty string are
falsy, every other string is truthy. -/
def strTruthy : Option String → Bool
  | none => false
  | some s => !(s == "")

/-- `TenantId._build`: build the tenant identifier string and classification
from the three optional identifiers; raises `ValueError` (modelled as
`Except.error`) when none is truthy. -/
def tenant_build (user_id agent_id session_id : Option String) :
    Except String (String × TenantType) :=
  if strTruthy session_id then
    .ok ("session:" ++ session_id.getD "", .session)
  else if strTruthy user_id && strTruthy agent_id then
    .ok ("user:" ++ user_id.getD "" ++ ":agent:" ++ agent_id.getD "", .combined)
  else if strTruthy agent_id then
    .ok ("agent:" ++ agent_id.getD "", .agent)
  else if strTruthy user_id then
    .ok ("user:" ++ user_id.getD "", .user)
  else
    .error "At least one of user_id, agent_id, or session_id is required"

/-! ## Cosine similarity

`FalkorDBGraphStore._cosine_similarity` guards empty/length-mismatched
inputs and zero norms; `AsyncGraphMemory._cosine_similarity` has no
empty/length guard (Python `zip` silently truncates to the shorter input)
but the same zero-norm guard. -/

/-- `sum(x * y for x, y in zip(a, b))` (Python `zip` truncates). -/
def dotQ (a b : List ℚ) : ℚ :=
  ((a.zip b).map (fun p => p.1 * p.2)).sum

/-- `sum(x * x for x in a)`. -/
def sumSq (a : List ℚ) : ℚ :=
  (a.map (fun x => x * x)).sum

/-- `FalkorDBGraphStore._cosine_similarity`. -/
noncomputable def falkor_cosine_similarity (a b : List ℚ) : ℝ :=
  if a = [] ∨ b = [] ∨ a.length ≠ b.length then 0
  else
    let dot : ℚ := dotQ a b
    let norm_a : ℝ := Real.sqrt ((sumSq a : ℚ) : ℝ)
    let norm_b : ℝ := Real.sqrt ((sumSq b : ℚ) : ℝ)
    if norm_a = 0 ∨ norm_b = 0 then 0
    else (dot : ℝ) / (norm_a * norm_b)

/-- `AsyncGraphMemory._cosine_similarity`. -/
noncomputable def main_cosine_similarity (a b : List ℚ) : ℝ :=
  let dot : ℚ := dotQ a b
  let norm_a : ℝ := Real.sqrt ((sumSq a : ℚ) : ℝ)
  let norm_b : ℝ := Real.sqrt ((sumSq b : ℚ) : ℝ)
  if norm_a = 0 ∨ norm_b = 0 then 0
  else (dot : ℝ) / (norm_a * norm_b)

theorem sumSq_nonneg (a : List ℚ) : 0 ≤ sumSq a := by
  unfold sumSq
  apply List.sum_nonneg
  intro x hx
  obtain ⟨y, _, rfl⟩ := List.mem_map.mp hx
  exact mul_self_nonneg y

theorem dotQ_self (a : List ℚ) : dotQ a a = sumSq a := by
  induction a with
  | nil => rfl
  | cons x xs ih =>
      simp only [dotQ, sumSq, List.zip_cons_cons, List.map_cons, List.sum_cons] at *
      rw [ih]

/-- C1: tenant key resolution is a pure function of the three optional
identifiers with priority session > user+agent > agent > user, the key and
classification being exactly the four documented shapes, and construction
failing with the tenant-resolution error when no identifier is supplied
(an identifier is "present" when it is supplied and non-empty, matching
Python truthiness). -/
theorem tenant_key_resolution (u a s : Option String) :
    (strTruthy s = true →
      tenant_build u a s = .ok ("session:" ++ s.getD "", .session))
    ∧ (strTruthy s = false → strTruthy u = true → strTruthy a = true →
      tenant_build u a s =
        .ok ("user:" ++ u.getD "" ++ ":agent:" ++ a.getD "", .combined))
    ∧ (strTruthy s = false → strTruthy u = false → strTruthy a = true →
      tenant_build u a s = .ok ("agent:" ++ a.getD "", .agent))
    ∧ (strTruthy s = false → strTruthy a = false → strTruthy u = true →
      tenant_build u a s = .ok ("user:" ++ u.getD "", .user))
    ∧ (strTruthy s = false → strTruthy u = false → strTruthy a = false →
      tenant_build u a s =
        .error "At least one of user_id, agent_id, or session_id is required") := by
  refine ⟨fun hs => ?_, fun hs hu ha => ?_, fun hs hu ha => ?_,
    fun hs ha hu => ?_, fun hs hu ha => ?_⟩ <;>
    simp [tenant_build, hs, *]

/-- Witness for C1: the four key shapes and the failure case at concrete
identifiers. -/
theorem tenant_key_resolution_witness :
    tenant_build (some "alice") (some "bot") (some "sess-1") =
      .ok ("session:sess-1", .session)
    ∧ tenant_build (some "alice") (some "bot") none =
      .ok ("user:alice:agent:bot", .combined)
    ∧ tenant_build none (some "bot") none = .ok ("agent:bot", .agent)
    ∧ tenant_build (some "alice") none none = .ok ("user:alice", .user)
    ∧ tenant_build none none none =
      .error "At least one of user_id, agent_id, or session_id is required" :=
  ⟨(tenant_key_resolution (some "alice") (some "bot") (some "sess-1")).1 (by decide),
   (tenant_key_resolution (some "alice") (some "bot") none).2.1
     (by decide) (by decide) (by decide),
   (tenant_key_resolution none (some "bot") none).2.2.1
     (by decide) (by decide) (by decide),
   (tenant_key_resolution (some "alice") none none).2.2.2.1
     (by decide) (by decide) (by decide),
   (tenant_key_resolution none none none).2.2.2.2
     (by decide) (by decide) (by decide)⟩

/-! ## Wire-protocol decoding (`FalkorDBGraphStore._parse_response`,
`_parse_compact_value`, `_parse_compact_map`, `_normalize_header`)

Python is dynamically typed, so wire data and decoded data share one value
type `Val`. The wire side only produces nulls, strings, integers and nested
lists; the decoded side also produces booleans, doubles and dictionaries.
A raised Python exception (e.g. `int()` on a non-numeric value) is modelled
as `Option.none`. -/

/-- Dynamically typed Python value. -/
inductive Val where
  | vnull
  | vstr (s : String)
  | vint (n : ℤ)
  | vbool (b : Bool)
  | vfloat (q : ℚ)
  | vlist (xs : List Val)
  | vmap (kvs : List (String × Val))
deriving Repr

/-- Python truthiness (`bool(x)`) of a value. -/
def pyTruthy : Val → Bool
  | .vnull => false
  | .vstr s => !(s == "")
  | .vint n => !(n == 0)
  | .vbool b => b
  | .vfloat q => !(q == 0)
  | .vlist xs => !xs.isEmpty
  | .vmap kvs => !kvs.isEmpty

/-- `isinstance(x, int)` together with the integer it denotes: Python `bool`
is a subclass of `int`, so `True`/`False` count as `1`/`0`. -/
def tagOf : Val → Option ℤ
  | .vint n => some n
  | .vbool b => some (if b then 1 else 0)
  | _ => none

/-- Truncation toward zero, as Python `int()` applied to a float. -/
def ratTrunc (q : ℚ) : ℤ :=
  if 0 ≤ q then q.floor else q.ceil

/-- Python `int(x)`: `none` models a raised `TypeError`/`ValueError`. -/
def pyInt? : Val → Option ℤ
  | .vint n => some n
  | .vbool b => some (if b then 1 else 0)
  | .vfloat q => some (ratTrunc q)
  | .vstr s => s.toInt?
  | _ => none

/-- Python `float(str)` on plain decimal forms (optional sign, digits,
optional fractional part). Scientific notation and the special values are
never produced for the properties this decoder handles and are mapped to
failure. -/
def parseDecimalString (s : String) : Option ℚ :=
  let core : String → Option ℚ := fun t =>
    match t.split (fun c => c = '.') with
    | [w] =>
      if w ≠ "" ∧ w.all Char.isDigit then (w.toNat?).map (fun n => (n : ℚ))
      else none
    | [w, f] =>
      if (w ++ f) ≠ "" ∧ w.all Char.isDigit ∧ f.all Char.isDigit then
        ((w ++ f).toNat?).map (fun n => (n : ℚ) / (10 : ℚ) ^ f.length)
      else none
    | _ => none
  if s.startsWith "-" then (core (s.drop 1)).map Neg.neg
  else if s.startsWith "+" then core (s.drop 1)
  else core s

/-- Python `float(x)`: `none` models a raised `TypeError`/`ValueError`. -/
def pyFloat? : Val → Option ℚ
  | .vfloat q => some q
  | .vint n => some (n : ℚ)
  | .vbool b => some (if b then 1 else 0)
  | .vstr s => parseDecimalString s
  | _ => none

/-- Python `str(x)` for the scalar values that can appear as the last
element of a header column; container reprs are never produced there and
are not modelled. -/
def pyStr : Val → String
  | .vstr s => s
  | .vint n => toString n
  | .vbool b => if b then "True" else "False"
  | .vnull => "None"
  | _ => ""

/-- Python `dict` insertion `m[k] = v`: updates the value in place when the
key is present, otherwise appends the new binding. -/
def dictInsert (m : List (String × Val)) (k : String) (v : Val) :
    List (String × Val) :=
  if m.any (fun p => p.1 == k) then
    m.map (fun p => if p.1 == k then (k, v) else p)
  else m ++ [(k, v)]

/-- The `type_id == 3` arm of `_parse_compact_value`:
`int(data) if data is not None else 0`. -/
def parse_int_payload (d : Val) : Option Val :=
  match d with
  | .vnull => some (.vint 0)
  | _ => (pyInt? d).map .vint

/-- The `type_id == 5` arm of `_parse_compact_value`:
`float(data) if data is not None else 0.0`. -/
def parse_float_payload (d : Val) : Option Val :=
  match d with
  | .vnull => some (.vfloat 0)
  | _ => (pyFloat? d).map .vfloat

mutual

/-- `FalkorDBGraphStore._parse_compact_value`: non-list values are returned
as-is, lists are decoded by `parse_list_value`. -/
def parse_compact_value (v : Val) : Option Val :=
  match v with
  | .vlist xs => parse_list_value xs
  | v => some v
termination_by 2 * sizeOf v
decreasing_by all_goals (simp_wf <;> omega)

/-- The list case of `_parse_compact_value`: an empty list is returned
as-is, a two-element list whose head is an int (Python bool included) is a
tagged value, anything else goes to the nested-wrapper check. -/
def parse_list_value (xs : List Val) : Option Val :=
  match xs with
  | [] => some (.vlist [])
  | [t, d] =>
    match tagOf t with
    | some tid => parse_tagged tid t d
    | none => parse_nested [t, d]
  | x :: rest => parse_nested (x :: rest)
termination_by 2 * sizeOf xs + 1
decreasing_by all_goals (simp_wf <;> omega)

/-- Type-code dispatch of `_parse_compact_value` (1 null, 2 string,
3 integer, 4 boolean, 5 double, 6 array, 10 map, 8 node); an unknown code
falls through to the nested-wrapper check, which fails because `value[0]`
is an int, so the value is returned as-is. -/
def parse_tagged (tid : ℤ) (t d : Val) : Option Val :=
  if tid = 1 then some .vnull
  else if tid = 2 then some d
  else if tid = 3 then parse_int_payload d
  else if tid = 4 then some (.vbool (pyTruthy d))
  else if tid = 5 then parse_float_payload d
  else if tid = 6 then parse_array_payload d
  else if tid = 10 then parse_map_payload d
  else if tid = 8 then parse_node_payload d
  else some (.vlist [t, d])
termination_by 2 * sizeOf d + 4
decreasing_by all_goals (simp_wf <;> omega)

/-- The `type_id == 6` arm: decode each element of a list payload,
return a non-list payload as-is. -/
def parse_array_payload (d : Val) : Option Val :=
  match d with
  | .vlist items => (parse_compact_items items).map .vlist
  | _ => some d
termination_by 2 * sizeOf d + 3
decreasing_by all_goals (simp_wf <;> omega)

/-- The `type_id == 10` arm: decode a map payload
(`_parse_compact_map` returns the empty dict for a non-list). -/
def parse_map_payload (d : Val) : Option Val :=
  match d with
  | .vlist kvs => (parse_compact_map [] kvs).map .vmap
  | _ => some (.vmap [])
termination_by 2 * sizeOf d + 3
decreasing_by all_goals (simp_wf <;> omega)

/-- The `type_id == 8` arm: a node `[node_id, [labels], [properties]]` is
unwrapped to its decoded properties; anything shorter or non-list becomes
the empty dict. -/
def parse_node_payload (d : Val) : Option Val :=
  match d with
  | .vlist (_ :: _ :: props :: _) => parse_compact_value props
  | _ => some (.vmap [])
termination_by 2 * sizeOf d + 3
decreasing_by all_goals (simp_wf <;> omega)

/-- The nested-wrapper check at the end of `_parse_compact_value`: when the
first element is itself a list, recurse on it, otherwise return the whole
list as-is. -/
def parse_nested (xs : List Val) : Option Val :=
  match xs with
  | .vlist ys :: rest => parse_compact_value (.vlist ys)
  | l => some (.vlist l)
termination_by 2 * sizeOf xs
decreasing_by all_goals (simp_wf <;> omega)

/-- Elementwise decoding of an array payload
(`[self._parse_compact_value(item) for item in data]`). -/
def parse_compact_items (l : List Val) : Option (List Val) :=
  match l with
  | [] => some []
  | x :: rest => do
    let px ← parse_compact_value x
    let prest ← parse_compact_items rest
    pure (px :: prest)
termination_by 2 * sizeOf l
decreasing_by all_goals (simp_wf <;> omega)

/-- `FalkorDBGraphStore._parse_compact_map` loop: consume
`[key, value, key, value, ...]`, decoding each value and skipping
non-string keys; a trailing unpaired element is dropped. -/
def parse_compact_map (acc : List (String × Val)) (l : List Val) :
    Option (List (String × Val)) :=
  match l with
  | k :: v :: rest =>
    match k with
    | .vstr s => do
      let pv ← parse_compact_value v
      parse_compact_map (dictInsert acc s pv) rest
    | _ => parse_compact_map acc (v :: rest)
  | _ => some acc
termination_by 2 * sizeOf l
decreasing_by all_goals (simp_wf <;> omega)

end

/-- `FalkorDBGraphStore._normalize_header`: a string column name is kept,
a list column takes `str` of its last element, anything else becomes the
empty string. -/
def normalize_header : Val → String
  | .vstr s => s
  | .vlist [] => ""
  | .vlist (h :: t) => pyStr ((h :: t).getLastD .vnull)
  | _ => ""

/-- Record construction in `_parse_response`: zip a data row positionally
with the normalized column names (extra row values beyond the header are
ignored, as are missing ones) and decode each value. -/
def build_record (names : List String) (row : List Val) :
    Option (List (String × Val)) :=
  (names.zip row).foldlM
    (fun acc p => (parse_compact_value p.2).map (fun pv => dictInsert acc p.1 pv))
    []

/-- Row loop of `_parse_response`: skip non-list rows, decode each list row
into a record and keep it only when non-empty. -/
def parse_rows (names : List String) : List Val → Option (List (List (String × Val)))
  | [] => some []
  | r :: rest =>
    match r with
    | .vlist rowVals => do
      let recd ← build_record names rowVals
      let tail ← parse_rows names rest
      pure (if recd.isEmpty then tail else recd :: tail)
    | _ => parse_rows names rest

/-- `FalkorDBGraphStore._parse_response`: consume the header row first
(`response[0]`), take the data rows from `response[1]` when it is a list,
and build one name-to-value record per data row; a non-list or empty
response or header yields no records. -/
def parse_response (response : Val) : Option (List (List (String × Val))) :=
  match response with
  | .vlist [] => some []
  | .vlist (header :: rest) =>
    let rows : List Val :=
      match rest with
      | r1 :: _ =>
        match r1 with
        | .vlist rs => rs
        | _ => []
      | [] => []
    match header with
    | .vlist [] => some []
    | .vlist (h :: t) => parse_rows ((h :: t).map normalize_header) rows
    | _ => some []
  | _ => some []

theorem parse_compact_items_eq_mapM (items : List Val) :
    parse_compact_items items = items.mapM parse_compact_value := by
  induction items with
  | nil =>
      simp only [parse_compact_items]
      rfl
  | cons x rest ih => simp only [parse_compact_items, ih, List.mapM_cons]

theorem dictInsert_fresh (m : List (String × Val)) (k : String) (v : Val)
    (h : ∀ p ∈ m, p.1 ≠ k) : dictInsert m k v = m ++ [(k, v)] := by
  unfold dictInsert
  have : m.any (fun p => p.1 == k) = false := by
    simp only [List.any_eq_false, beq_iff_eq]
    exact h
  simp [this]

/-- Accumulator-generalized form of the record-zipping lemma. -/
theorem build_record_go (names : List String) :
    ∀ (row pvs : List Val) (acc : List (String × Val)),
    names.Nodup → names.length = row.length →
    parse_compact_items row = some pvs →
    (∀ p ∈ acc, p.1 ∉ names) →
    (names.zip row).foldlM
        (fun acc p => (parse_compact_value p.2).map (fun pv => dictInsert acc p.1 pv))
        acc
      = some (acc ++ names.zip pvs) := by
  induction names with
  | nil =>
      intro row pvs acc _ hlen hrow _
      cases row with
      | nil =>
          simp only [parse_compact_items, Option.some.injEq] at hrow
          subst hrow
          simp
      | cons r rs => simp at hlen
  | cons n ns ih =>
      intro row pvs acc hnd hlen hrow hacc
      cases row with
      | nil => simp at hlen
      | cons r rs =>
          simp only [parse_compact_items, Option.pure_def,
            Option.bind_eq_bind] at hrow
          cases hr : parse_compact_value r with
          | none => simp [hr] at hrow
          | some pr =>
              rw [hr] at hrow
              simp only [Option.some_bind] at hrow
              cases hrs : parse_compact_items rs with
              | none => simp [hrs] at hrow
              | some prs =>
                  rw [hrs] at hrow
                  simp only [Option.some_bind, Option.some.injEq] at hrow
                  subst hrow
                  simp only [List.zip_cons_cons, List.foldlM_cons, hr,
                    Option.map_some', Option.bind_eq_bind, Option.some_bind]
                  rw [dictInsert_fresh acc n pr
                    (fun p hp => fun he => hacc p hp (he ▸ List.mem_cons_self n ns))]
                  have hnd' := (List.nodup_cons.mp hnd).2
                  have hlen' : ns.length = rs.length := by
                    simpa using hlen
                  have hstep := ih rs prs (acc ++ [(n, pr)]) hnd' hlen' hrs ?_
                  · rw [hstep]
                    simp
                  · intro p hp
                    rcases List.mem_append.mp hp with hp | hp
                    · exact fun hm => hacc p hp (List.mem_cons_of_mem n hm)
                    · simp only [List.mem_singleton] at hp
                      subst hp
                      exact fun hm => (List.nodup_cons.mp hnd).1 hm

theorem build_record_eq (names : List String) (row pvs : List Val)
    (hnd : names.Nodup) (hlen : names.length = row.length)
    (hrow : parse_compact_items row = some pvs) :
    build_record names row = some (names.zip pvs) := by
  have := build_record_go names row pvs [] hnd hlen hrow (by simp)
  simpa [build_record] using this

/-- The interleaved `[key1, value1, key2, value2, ...]` form of a compact
map payload. -/
def interleave (ps : List (String × Val)) : List Val :=
  (ps.map (fun p => [Val.vstr p.1, p.2])).flatten

/-- Accumulator-generalized decoding of a well-formed compact map payload. -/
theorem parse_compact_map_go :
    ∀ (ps : List (String × Val)) (qs : List Val) (acc : List (String × Val)),
    (ps.map Prod.fst).Nodup →
    parse_compact_items (ps.map Prod.snd) = some qs →
    (∀ p ∈ acc, p.1 ∉ ps.map Prod.fst) →
    parse_compact_map acc (interleave ps) = some (acc ++ (ps.map Prod.fst).zip qs) := by
  intro ps
  induction ps with
  | nil =>
      intro qs acc _ hps _
      simp only [List.map_nil, parse_compact_items, Option.some.injEq] at hps
      subst hps
      simp [interleave, parse_compact_map]
  | cons p rest ih =>
      intro qs acc hnd hps hacc
      obtain ⟨k, v⟩ := p
      simp only [List.map_cons, parse_compact_items, Option.pure_def,
        Option.bind_eq_bind] at hps
      cases hv : parse_compact_value v with
      | none => simp [hv] at hps
      | some pv =>
          rw [hv] at hps
          simp only [Option.some_bind] at hps
          cases hrest : parse_compact_items (rest.map Prod.snd) with
          | none => simp [hrest] at hps
          | some qrest =>
              rw [hrest] at hps
              simp only [Option.some_bind, Option.some.injEq] at hps
              subst hps
              have hstep : interleave ((k, v) :: rest) =
                  Val.vstr k :: v :: interleave rest := by
                simp [interleave]
              rw [hstep]
              simp only [parse_compact_map, hv, Option.bind_eq_bind, Option.some_bind]
              rw [dictInsert_fresh acc k pv
                (fun q hq => fun he => hacc q hq (he ▸ by simp))]
              simp only [List.map_cons] at hnd
              have hnd' := (List.nodup_cons.mp hnd).2
              have := ih qrest (acc ++ [(k, pv)]) hnd' hrest ?_
              · rw [this]
                simp
              · intro q hq
                rcases List.mem_append.mp hq with hq | hq
                · exact fun hm => hacc q hq (by simp [hm])
                · simp only [List.mem_singleton] at hq
                  subst hq
                  exact fun hm => (List.nodup_cons.mp hnd).1 hm

/-- C2: the wire decoder consumes the header row first and zips each data
row positionally into a column-name-to-value record, and resolves tagged
values `[type_code, payload]` per the type table: 1 gives null, 2 the
string payload, 3 an integer, 4 a boolean, 5 a double, 6 an array with each
element recursively decoded, 10 a key/value map with each value recursively
decoded, and 8 (node) is unwrapped down to its decoded property map. -/
theorem wire_decoding_spec :
    (∀ (hs rows : List Val), hs ≠ [] →
      parse_response (.vlist [.vlist hs, .vlist rows]) =
        parse_rows (hs.map normalize_header) rows)
    ∧ (∀ (names : List String) (row pvs : List Val),
        names.Nodup → names.length = row.length →
        parse_compact_items row = some pvs →
        build_record names row = some (names.zip pvs))
    ∧ (∀ d, parse_compact_value (.vlist [.vint 1, d]) = some .vnull)
    ∧ (∀ d, parse_compact_value (.vlist [.vint 2, d]) = some d)
    ∧ (∀ n : ℤ, parse_compact_value (.vlist [.vint 3, .vint n]) = some (.vint n))
    ∧ (∀ d, parse_compact_value (.vlist [.vint 4, d]) = some (.vbool (pyTruthy d)))
    ∧ (∀ q : ℚ, parse_compact_value (.vlist [.vint 5, .vfloat q]) = some (.vfloat q))
    ∧ (∀ items, parse_compact_value (.vlist [.vint 6, .vlist items]) =
        (items.mapM parse_compact_value).map .vlist)
    ∧ (∀ (ps : List (String × Val)) (qs : List Val),
        (ps.map Prod.fst).Nodup →
        parse_compact_items (ps.map Prod.snd) = some qs →
        parse_compact_value (.vlist [.vint 10, .vlist (interleave ps)]) =
          some (.vmap ((ps.map Prod.fst).zip qs)))
    ∧ (∀ (nid labels props : Val) (extra : List Val),
        parse_compact_value (.vlist [.vint 8, .vlist (nid :: labels :: props :: extra)]) =
          parse_compact_value props) := by
  refine ⟨?_, build_record_eq, ?_, ?_, ?_, ?_, ?_, ?_, ?_, ?_⟩
  · intro hs rows hne
    cases hs with
    | nil => exact absurd rfl hne
    | cons h t => rfl
  · intro d
    simp [parse_compact_value, parse_list_value, tagOf, parse_tagged]
  · intro d
    simp [parse_compact_value, parse_list_value, tagOf, parse_tagged]
  · intro n
    simp [parse_compact_value, parse_list_value, tagOf, parse_tagged,
      parse_int_payload, pyInt?]
  · intro d
    simp [parse_compact_value, parse_list_value, tagOf, parse_tagged]
  · intro q
    simp [parse_compact_value, parse_list_value, tagOf, parse_tagged,
      parse_float_payload, pyFloat?]
  · intro items
    rw [show parse_compact_value (.vlist [.vint 6, .vlist items]) =
        parse_array_payload (.vlist items) from by
      simp [parse_compact_value, parse_list_value, tagOf, parse_tagged]]
    simp [parse_array_payload, parse_compact_items_eq_mapM]
  · intro ps qs hnd hps
    rw [show parse_compact_value (.vlist [.vint 10, .vlist (interleave ps)]) =
        parse_map_payload (.vlist (interleave ps)) from by
      simp [parse_compact_value, parse_list_value, tagOf, parse_tagged]]
    simp only [parse_map_payload]
    rw [parse_compact_map_go ps qs [] hnd hps (by simp)]
    simp
  · intro nid labels props extra
    simp [parse_compact_value, parse_list_value, tagOf, parse_tagged,
      parse_node_payload]

/-- Witness for C2: a concrete two-column response carrying a node in the
first column and a tagged integer in the second decodes to the expected
record; the hypotheses of the zipping and map clauses are discharged at the
same concrete data. -/
theorem wire_decoding_spec_witness :
    parse_response
        (.vlist [.vlist [.vstr "props", .vstr "cnt"],
          .vlist [.vlist
            [.vlist [.vint 8,
              .vlist [.vint 0, .vlist [],
                .vlist [.vint 10, .vlist [.vstr "name", .vlist [.vint 2, .vstr "Alice"]]]]],
             .vlist [.vint 3, .vint 5]]]]) =
      some [[("props", .vmap [("name", .vstr "Alice")]), ("cnt", .vint 5)]]
    ∧ build_record ["a", "b"] [.vlist [.vint 1, .vnull], .vlist [.vint 4, .vint 2]] =
      some [("a", .vnull), ("b", .vbool true)]
    ∧ parse_compact_value
        (.vlist [.vint 10, .vlist (interleave [("k", .vlist [.vint 3, .vint 9])])]) =
      some (.vmap [("k", .vint 9)]) := by
  refine ⟨?_, ?_, ?_⟩
  · simp [parse_response, parse_rows, build_record, normalize_header, pyStr,
      dictInsert, parse_compact_value, parse_list_value, tagOf, parse_tagged,
      parse_node_payload, parse_map_payload, parse_compact_map,
      parse_int_payload, pyInt?]
  · exact (wire_decoding_spec.2.1) ["a", "b"]
      [.vlist [.vint 1, .vnull], .vlist [.vint 4, .vint 2]]
      [.vnull, .vbool true] (by simp) rfl
      (by simp [parse_compact_items, parse_compact_value, parse_list_value,
        tagOf, parse_tagged, pyTruthy])
  · exact (wire_decoding_spec.2.2.2.2.2.2.2.2.1)
      [("k", .vlist [.vint 3, .vint 9])] [.vint 9] (by simp)
      (by simp [parse_compact_items, parse_compact_value, parse_list_value,
        tagOf, parse_tagged, parse_int_payload, pyInt?])

theorem falkor_cosine_zero_norm (a b : List ℚ)
    (h : sumSq a = 0 ∨ sumSq b = 0) : falkor_cosine_similarity a b = 0 := by
  unfold falkor_cosine_similarity
  by_cases hg : a = [] ∨ b = [] ∨ a.length ≠ b.length
  · simp [hg]
  · simp only [hg, if_false]
    have : Real.sqrt ((sumSq a : ℚ) : ℝ) = 0 ∨ Real.sqrt ((sumSq b : ℚ) : ℝ) = 0 := by
      rcases h with h | h <;> [left; right] <;> simp [h]
    simp [this]

/-- C7: the backend cosine similarity sends a non-zero-norm vector paired
with itself to exactly 1, any orthogonal pair (zero dot product) to 0, and
any pair in which either vector has zero norm to 0. -/
theorem falkor_cosine_spec (a b : List ℚ) :
    (a ≠ [] → sumSq a ≠ 0 → falkor_cosine_similarity a a = 1)
    ∧ (dotQ a b = 0 → falkor_cosine_similarity a b = 0)
    ∧ ((sumSq a = 0 ∨ sumSq b = 0) → falkor_cosine_similarity a b = 0) := by
  refine ⟨fun hne hs => ?_, fun hdot => ?_, falkor_cosine_zero_norm a b⟩
  · have hpos : (0 : ℝ) < ((sumSq a : ℚ) : ℝ) := by
      have := sumSq_nonneg a
      have : (0 : ℚ) < sumSq a := lt_of_le_of_ne this (Ne.symm hs)
      exact_mod_cast this
    have hsq : Real.sqrt ((sumSq a : ℚ) : ℝ) ≠ 0 := by
      positivity
    unfold falkor_cosine_similarity
    have hg : ¬(a = [] ∨ a = [] ∨ a.length ≠ a.length) := by simp [hne]
    simp only [hg, if_false, hsq, or_self, dotQ_self]
    rw [Real.mul_self_sqrt (le_of_lt hpos)]
    exact div_self (ne_of_gt hpos)
  · unfold falkor_cosine_similarity
    by_cases hg : a = [] ∨ b = [] ∨ a.length ≠ b.length
    · simp [hg]
    · simp [hg, hdot]

/-- Witness for C7: self-similarity 1 at `[1, 2]`, orthogonality 0 at
`[1, 0]` vs `[0, 1]`, and zero-vector 0 at `[0, 0]` vs `[1, 2]`. -/
theorem falkor_cosine_spec_witness :
    falkor_cosine_similarity [1, 2] [1, 2] = 1
    ∧ falkor_cosine_similarity [1, 0] [0, 1] = 0
    ∧ falkor_cosine_similarity [0, 0] [1, 2] = 0 :=
  ⟨(falkor_cosine_spec [1, 2] [1, 2]).1 (by decide) (by norm_num [sumSq]),
   (falkor_cosine_spec [1, 0] [0, 1]).2.1 (by norm_num [dotQ]),
   (falkor_cosine_spec [0, 0] [1, 2]).2.2 (Or.inl (by norm_num [sumSq]))⟩

/-- C10: the orchestrator cosine similarity and the backend cosine
similarity agree on every pair of non-empty vectors of equal length (their
common guarded domain). -/
theorem cosine_refinement (a b : List ℚ)
    (ha : a ≠ []) (hb : b ≠ []) (hl : a.length = b.length) :
    falkor_cosine_similarity a b = main_cosine_similarity a b := by
  unfold falkor_cosine_similarity main_cosine_similarity
  have hg : ¬(a = [] ∨ b = [] ∨ a.length ≠ b.length) := by
    simp [ha, hb, hl]
  simp only [hg, if_false]

/-- Witness for C10: agreement at `[1, 2]` vs `[3, 4]`. -/
theorem cosine_refinement_witness :
    ([1, 2] : List ℚ) ≠ [] ∧ ([3, 4] : List ℚ) ≠ []
    ∧ falkor_cosine_similarity [1, 2] [3, 4] = main_cosine_similarity [1, 2] [3, 4] :=
  ⟨by decide, by decide,
   cosine_refinement [1, 2] [3, 4] (by decide) (by decide) (by decide)⟩

/-! ## Graph data model

Modelled from the spec: the repository's `agmem/graph/models.py` (the
`Entity`, `Relationship` and `Episode` value types of spec section 3) is not
under `src/`; the field sets below are exactly the ones
`FalkorDBGraphStore` reads and writes. Timestamps are microsecond-precision
datetimes (`DT`), metadata is an open string-keyed map (`Meta`), embeddings
are optional float vectors. -/

/-- Microsecond-precision datetime (see the modelling conventions above). -/
abbrev DT := Int

/-- Open key-value metadata map (string-valued, see conventions above). -/
abbrev Meta := List (String × String)

/-- Modelled from the spec: Entity value type (spec section 3). -/
structure Entity where
  id : String
  user_id : String
  name : String
  name_hash : String
  entity_type : String
  summary : String
  embedding : Option (List ℚ)
  metadata : Meta
  created_at : DT
  updated_at : DT
deriving DecidableEq, Repr

/-- Modelled from the spec: Relationship value type (spec section 3). -/
structure Relationship where
  id : String
  user_id : String
  source_id : String
  target_id : String
  relation_type : String
  fact : String
  fact_hash : String
  embedding : Option (List ℚ)
  metadata : Meta
  created_at : DT
  updated_at : DT
deriving DecidableEq, Repr

/-- Modelled from the spec: Episode value type (spec section 3). -/
structure Episode where
  id : String
  user_id : String
  content : String
  source : String
  entity_ids : List String
  relationship_ids : List String
  metadata : Meta
  created_at : DT
deriving DecidableEq, Repr

/-! ## Graph store state

The stored property sets, exactly as the `SET` clauses of
`save_entity`/`save_relationship`/`save_episode` write them: the embedding
property is `entity.embedding or []`, the metadata property is the
JSON-serialized map (modelled by the map itself), timestamps are the
ISO-formatted datetimes (modelled by the datetime). -/

/-- An `:Entity` node as stored by `save_entity`. -/
structure EntityNode where
  id : String
  user_id : String
  name : String
  name_hash : String
  entity_type : String
  summary : String
  embedding : List ℚ
  metadata : Meta
  created_at : DT
  updated_at : DT
deriving DecidableEq, Repr

/-- A `:RELATES_TO` edge as stored by `save_relationship`. -/
structure RelEdge where
  id : String
  user_id : String
  source_id : String
  target_id : String
  relation_type : String
  fact : String
  fact_hash : String
  embedding : List ℚ
  metadata : Meta
  created_at : DT
  updated_at : DT
deriving DecidableEq, Repr

/-- An `:Episode` node as stored by `save_episode`. -/
structure EpisodeNode where
  id : String
  user_id : String
  content : String
  source : String
  entity_ids : List String
  relationship_ids : List String
  metadata : Meta
  created_at : DT
deriving DecidableEq, Repr

/-- The graph database state: entity nodes, relationship edges, episode
nodes. -/
structure GraphState where
  entities : List EntityNode
  rels : List RelEdge
  episodes : List EpisodeNode
deriving DecidableEq, Repr

/-- The property set written by `save_entity`
(`embedding: entity.embedding or []`, `metadata: json.dumps(... or {})`,
ISO timestamps). -/
def entity_to_node (e : Entity) : EntityNode :=
  { id := e.id, user_id := e.user_id, name := e.name, name_hash := e.name_hash,
    entity_type := e.entity_type, summary := e.summary,
    embedding := e.embedding.getD [], metadata := e.metadata,
    created_at := e.created_at, updated_at := e.updated_at }

/-- `save_entity`: `MERGE (e:Entity {id: ...}) SET ...` — update every node
carrying the id when one exists, otherwise create one. -/
def save_entity (s : GraphState) (e : Entity) : GraphState :=
  if s.entities.any (fun n => n.id == e.id) then
    { s with entities :=
        s.entities.map (fun n => if n.id == e.id then entity_to_node e else n) }
  else
    { s with entities := s.entities ++ [entity_to_node e] }

/-- `save_entities`: loop of `save_entity`. -/
def save_entities (s : GraphState) (es : List Entity) : GraphState :=
  es.foldl save_entity s

/-- `FalkorDBGraphStore._decode_embedding` on a stored list property: every
element converts, and `floats or None` maps the empty list to `None`. -/
def decode_embedding (l : List ℚ) : Option (List ℚ) :=
  if l.isEmpty then none else some l

/-- `FalkorDBGraphStore._record_to_entity`: decode the stored property set
back into an Entity (metadata via `json.loads`, embedding via
`_decode_embedding`, timestamps via `fromisoformat`). -/
def node_to_entity (n : EntityNode) : Entity :=
  { id := n.id, user_id := n.user_id, name := n.name, name_hash := n.name_hash,
    entity_type := n.entity_type, summary := n.summary,
    embedding := decode_embedding n.embedding, metadata := n.metadata,
    created_at := n.created_at, updated_at := n.updated_at }

/-- `get_entity`: `MATCH (e:Entity {id: ...}) RETURN properties(e) LIMIT 1`,
decoded by `_record_to_entity`; absent id gives `None`. -/
def get_entity (s : GraphState) (eid : String) : Option Entity :=
  (s.entities.find? (fun n => n.id == eid)).map node_to_entity

/-- `get_entities_by_user`: the tenant's entity nodes ordered by
`created_at DESC`, limited, decoded. -/
def get_entities_by_user (s : GraphState) (uid : String) (limit : ℕ) :
    List Entity :=
  ((((s.entities.filter (fun n => n.user_id == uid)).mergeSort
      (fun x y => decide (y.created_at ≤ x.created_at))).take limit).map
    node_to_entity)

/-- `delete_entity`: `MATCH (e:Entity {id: ...}) DETACH DELETE e` — remove
the matched nodes together with their incident edges; no match, no change. -/
def delete_entity (s : GraphState) (eid : String) : GraphState :=
  if s.entities.any (fun n => n.id == eid) then
    { s with
      entities := s.entities.filter (fun n => !(n.id == eid)),
      rels := s.rels.filter
        (fun ed => !(ed.source_id == eid || ed.target_id == eid)) }
  else s

/-- The property set written by `save_relationship`. -/
def rel_to_edge (r : Relationship) : RelEdge :=
  { id := r.id, user_id := r.user_id, source_id := r.source_id,
    target_id := r.target_id, relation_type := r.relation_type, fact := r.fact,
    fact_hash := r.fact_hash, embedding := r.embedding.getD [],
    metadata := r.metadata, created_at := r.created_at,
    updated_at := r.updated_at }

/-- Both endpoints of an edge are present entity nodes (every `MATCH`
pattern the store issues for edges requires `(:Entity)-[r]->(:Entity)`). -/
def endpoints_exist (s : GraphState) (ed : RelEdge) : Bool :=
  s.entities.any (fun n => n.id == ed.source_id)
    && s.entities.any (fun n => n.id == ed.target_id)

/-- `save_relationship`: `MATCH` source and target by id, then
`MERGE (source)-[r:RELATES_TO {id: ...}]->(target) SET ...` — with a missing
endpoint nothing is written; otherwise the edge with this id between these
endpoints is updated when it exists and created when it does not. -/
def save_relationship (s : GraphState) (r : Relationship) : GraphState :=
  if s.entities.any (fun n => n.id == r.source_id)
      && s.entities.any (fun n => n.id == r.target_id) then
    if s.rels.any (fun ed =>
        ed.id == r.id && ed.source_id == r.source_id
          && ed.target_id == r.target_id) then
      { s with rels := s.rels.map (fun ed =>
          if ed.id == r.id && ed.source_id == r.source_id
              && ed.target_id == r.target_id then rel_to_edge r else ed) }
    else { s with rels := s.rels ++ [rel_to_edge r] }
  else s

/-- `save_relationships`: loop of `save_relationship`. -/
def save_relationships (s : GraphState) (rs : List Relationship) : GraphState :=
  rs.foldl save_relationship s

/-- `FalkorDBGraphStore._record_to_relationship`: decode edge properties
plus the endpoint ids returned by the query. -/
def edge_to_rel (ed : RelEdge) : Relationship :=
  { id := ed.id, user_id := ed.user_id, source_id := ed.source_id,
    target_id := ed.target_id, relation_type := ed.relation_type,
    fact := ed.fact, fact_hash := ed.fact_hash,
    embedding := decode_embedding ed.embedding, metadata := ed.metadata,
    created_at := ed.created_at, updated_at := ed.updated_at }

/-- `get_relationship`: match an edge with the id between entity nodes,
`LIMIT 1`. -/
def get_relationship (s : GraphState) (rid : String) : Option Relationship :=
  ((s.rels.filter (endpoints_exist s)).find? (fun ed => ed.id == rid)).map
    edge_to_rel

/-- `get_relationships_by_user`: the tenant's edges between entity nodes,
ordered by `created_at DESC`, limited, decoded. -/
def get_relationships_by_user (s : GraphState) (uid : String) (limit : ℕ) :
    List Relationship :=
  ((((s.rels.filter (fun ed => endpoints_exist s ed && ed.user_id == uid)).mergeSort
      (fun x y => decide (y.created_at ≤ x.created_at))).take limit).map
    edge_to_rel)

/-- `get_entity_relationships`: edges incident to the entity in either
direction (`MATCH (e:Entity {id})-[r:RELATES_TO]-(other:Entity)`). -/
def get_entity_relationships (s : GraphState) (eid : String) :
    List Relationship :=
  if s.entities.any (fun n => n.id == eid) then
    (s.rels.filter (fun ed =>
      endpoints_exist s ed && (ed.source_id == eid || ed.target_id == eid))).map
      edge_to_rel
  else []

/-- The property set written by `save_episode`. -/
def episode_to_node (ep : Episode) : EpisodeNode :=
  { id := ep.id, user_id := ep.user_id, content := ep.content,
    source := ep.source, entity_ids := ep.entity_ids,
    relationship_ids := ep.relationship_ids, metadata := ep.metadata,
    created_at := ep.created_at }

/-- `save_episode`: `MERGE (ep:Episode {id: ...}) SET ...`. -/
def save_episode (s : GraphState) (ep : Episode) : GraphState :=
  if s.episodes.any (fun n => n.id == ep.id) then
    { s with episodes :=
        s.episodes.map (fun n => if n.id == ep.id then episode_to_node ep else n) }
  else
    { s with episodes := s.episodes ++ [episode_to_node ep] }

/-- `FalkorDBGraphStore._record_to_episode` (`_decode_list` is the identity
on stored string lists). -/
def node_to_episode (n : EpisodeNode) : Episode :=
  { id := n.id, user_id := n.user_id, content := n.content, source := n.source,
    entity_ids := n.entity_ids, relationship_ids := n.relationship_ids,
    metadata := n.metadata, created_at := n.created_at }

/-- `get_episode`. -/
def get_episode (s : GraphState) (eid : String) : Option Episode :=
  (s.episodes.find? (fun n => n.id == eid)).map node_to_episode

/-- `delete_user_data`: count the nodes carrying the tenant key
(`MATCH (n {user_id: ...}) RETURN count(n)` matches entity and episode
nodes), then `DETACH DELETE` them (incident edges removed with their
endpoints), and return the pre-deletion count. -/
def delete_user_data (s : GraphState) (uid : String) : GraphState × ℕ :=
  let cnt := (s.entities.countP (fun n => n.user_id == uid))
    + (s.episodes.countP (fun n => n.user_id == uid))
  ({ entities := s.entities.filter (fun n => !(n.user_id == uid)),
     rels := s.rels.filter (fun ed => !(s.entities.any (fun n =>
       (n.id == ed.source_id || n.id == ed.target_id) && n.user_id == uid))),
     episodes := s.episodes.filter (fun n => !(n.user_id == uid)) }, cnt)

/-! ## Similarity search (`search_entities` / `search_relationships`)

Both load up to 500 of the tenant's items, keep those whose (decoded)
embedding is truthy (`if entity.embedding:` — `None` and the empty list are
skipped), score them against the query embedding, sort by score descending
(Python's stable `list.sort(..., reverse=True)` = a stable merge sort under
the reversed comparison) and return the top `limit`. -/

/-- Python truthiness of the decoded `entity.embedding` field. -/
def entity_has_embedding (e : Entity) : Bool :=
  match e.embedding with
  | none => false
  | some l => !l.isEmpty

/-- Python truthiness of the decoded `rel.embedding` field. -/
def rel_has_embedding (r : Relationship) : Bool :=
  match r.embedding with
  | none => false
  | some l => !l.isEmpty

/-- The scored candidate list of `search_entities` after the sort. -/
noncomputable def ranked_scored_entities (s : GraphState) (q : List ℚ)
    (uid : String) : List (Entity × ℝ) :=
  (((get_entities_by_user s uid 500).filter entity_has_embedding).map
    (fun e => (e, falkor_cosine_similarity q (e.embedding.getD [])))).mergeSort
    (fun x y => decide (y.2 ≤ x.2))

/-- `FalkorDBGraphStore.search_entities`. -/
noncomputable def search_entities (s : GraphState) (q : List ℚ) (uid : String)
    (limit : ℕ) : List Entity :=
  ((ranked_scored_entities s q uid).map Prod.fst).take limit

/-- The scored candidate list of `search_relationships` after the sort. -/
noncomputable def ranked_scored_rels (s : GraphState) (q : List ℚ)
    (uid : String) : List (Relationship × ℝ) :=
  (((get_relationships_by_user s uid 500).filter rel_has_embedding).map
    (fun r => (r, falkor_cosine_similarity q (r.embedding.getD [])))).mergeSort
    (fun x y => decide (y.2 ≤ x.2))

/-- `FalkorDBGraphStore.search_relationships`. -/
noncomputable def search_relationships (s : GraphState) (q : List ℚ)
    (uid : String) (limit : ℕ) : List Relationship :=
  ((ranked_scored_rels s q uid).map Prod.fst).take limit

/-! ## Orchestrator (`AsyncGraphMemory`, `agmem/graph/main.py`)

`add`'s extraction step (the language-model pipeline in
`agmem/graph/extraction.py`, not under `src/`) produces the lists of
net-new-or-updated entities and relationships; `add` is modelled as the
ordered trace of store writes it issues for those lists, which is the part
claims speak about. -/

/-- A store write issued during `add`. -/
inductive StoreOp where
  | save_ent (e : Entity)
  | save_rel (r : Relationship)
  | save_ep (ep : Episode)
deriving DecidableEq, Repr

/-- Is the operation an episode write? -/
def StoreOp.isEp : StoreOp → Bool
  | .save_ep _ => true
  | _ => false

/-- The Episode `AsyncGraphMemory.add` constructs: content redacted when
`store_episode_content` is off, and the id lists taken from the persisted
entities and relationships of this call. -/
def add_episode (new_entities : List Entity) (new_rels : List Relationship)
    (uid content : String) (store_content : Bool) (ep_id source : String)
    (meta : Meta) (ts : DT) : Episode :=
  { id := ep_id, user_id := uid,
    content := if store_content then content else "",
    source := source,
    entity_ids := new_entities.map (fun e => e.id),
    relationship_ids := new_rels.map (fun r => r.id),
    metadata := meta, created_at := ts }

/-- The ordered write trace of `AsyncGraphMemory.add`: all entity saves,
then all relationship saves, then exactly one episode save (an empty list
issues no writes, matching the `if new_entities:` guards). -/
def add_trace (new_entities : List Entity) (new_rels : List Relationship)
    (uid content : String) (store_content : Bool) (ep_id source : String)
    (meta : Meta) (ts : DT) : List StoreOp :=
  (new_entities.map StoreOp.save_ent) ++ (new_rels.map StoreOp.save_rel)
    ++ [StoreOp.save_ep
          (add_episode new_entities new_rels uid content store_content
            ep_id source meta ts)]

/-- `AsyncGraphMemory.get_entity`: absent entity gives `None`, otherwise the
entity with its incident relationships. -/
def main_get_entity (s : GraphState) (eid : String) :
    Option (Entity × List Relationship) :=
  match get_entity s eid with
  | none => none
  | some e => some (e, get_entity_relationships s eid)

/-- `AsyncGraphMemory.delete`: absent entity gives `success: False` and
issues no delete; otherwise the entity is detach-deleted. The boolean is the
returned success flag. -/
def main_delete (s : GraphState) (eid : String) : GraphState × Bool :=
  match get_entity s eid with
  | none => (s, false)
  | some _ => (delete_entity s eid, true)

/-! ## Theorems about the store and orchestrator -/

theorem find?_map_upsert {α : Type} (p : α → Bool) (node : α) (f : α → α)
    (hnode : p node = true) (hf1 : ∀ a, p a = true → f a = node)
    (hf2 : ∀ a, p a = false → f a = a) :
    ∀ (l : List α), l.any p = true → (l.map f).find? p = some node := by
  intro l
  induction l with
  | nil => intro h; simp at h
  | cons a t ih =>
      intro hmem
      by_cases hpa : p a = true
      · simp [List.find?_cons, hf1 a hpa, hnode]
      · have hpa' : p a = false := by simpa using hpa
        have hfa : f a = a := hf2 a hpa'
        have hmem' : t.any p = true := by simpa [hpa'] using hmem
        simp [List.find?_cons, hfa, hpa', ih hmem']

theorem find?_append_upsert {α : Type} (p : α → Bool) (node : α) (l : List α)
    (hnode : p node = true) (hmem : l.any p = false) :
    (l ++ [node]).find? p = some node := by
  have hl : l.find? p = none := by
    rw [List.find?_eq_none]
    intro x hx
    have := List.any_eq_false.mp hmem x hx
    simpa using this
  simp [List.find?_append, hl, List.find?_cons, hnode]

/-- C9: a missing item is an explicit absent result, never an exception:
with no stored entity under the id, the store lookup and the orchestrator
lookup return `None`, and the orchestrator delete returns a failure status
with the state unchanged. -/
theorem missing_entity_behavior (s : GraphState) (eid : String)
    (h : ∀ n ∈ s.entities, n.id ≠ eid) :
    get_entity s eid = none
    ∧ main_get_entity s eid = none
    ∧ main_delete s eid = (s, false) := by
  have hfind : s.entities.find? (fun n => n.id == eid) = none := by
    rw [List.find?_eq_none]
    intro n hn
    simp [h n hn]
  have hget : get_entity s eid = none := by simp [get_entity, hfind]
  exact ⟨hget, by simp [main_get_entity, hget], by simp [main_delete, hget]⟩

/-- Witness for C9: the empty store at a concrete id. -/
theorem missing_entity_behavior_witness :
    get_entity ⟨[], [], []⟩ "e1" = none
    ∧ main_get_entity ⟨[], [], []⟩ "e1" = none
    ∧ main_delete ⟨[], [], []⟩ "e1" = (⟨[], [], []⟩, false) :=
  missing_entity_behavior ⟨[], [], []⟩ "e1" (by simp)

theorem save_entity_rels (s : GraphState) (e : Entity) :
    (save_entity s e).rels = s.rels := by
  unfold save_entity
  split <;> rfl

theorem save_entity_episodes (s : GraphState) (e : Entity) :
    (save_entity s e).episodes = s.episodes := by
  unfold save_entity
  split <;> rfl

theorem save_entity_entities_filter (s : GraphState) (e : Entity)
    (h : s.entities.countP (fun n => n.id == e.id) ≤ 1) :
    (save_entity s e).entities.filter (fun n => n.id == e.id)
      = [entity_to_node e] := by
  unfold save_entity
  by_cases hmem : s.entities.any (fun n => n.id == e.id)
  · simp only [hmem, if_true]
    rw [List.filter_map]
    have hcong : s.entities.filter
        ((fun n => n.id == e.id) ∘
          (fun n => if n.id == e.id then entity_to_node e else n))
        = s.entities.filter (fun n => n.id == e.id) := by
      apply List.filter_congr
      intro n _
      by_cases hn : n.id == e.id <;> simp [Function.comp, hn, entity_to_node]
    rw [hcong]
    have hlen : (s.entities.filter (fun n => n.id == e.id)).length = 1 := by
      rw [← List.countP_eq_length_filter]
      rcases Nat.lt_or_ge (s.entities.countP (fun n => n.id == e.id)) 1 with hlt | hge
      · exfalso
        have h0 : s.entities.countP (fun n => n.id == e.id) = 0 := by omega
        rw [List.countP_eq_length_filter, List.length_eq_zero] at h0
        obtain ⟨n, hn, hpn⟩ := List.any_eq_true.mp hmem
        have : n ∈ s.entities.filter (fun n => n.id == e.id) :=
          List.mem_filter.mpr ⟨hn, hpn⟩
        simp [h0] at this
      · omega
    obtain ⟨n0, hn0⟩ := List.length_eq_one.mp hlen
    rw [hn0]
    have hpn0 : (n0.id == e.id) = true := by
      have : n0 ∈ s.entities.filter (fun n => n.id == e.id) := by
        simp [hn0]
      exact (List.mem_filter.mp this).2
    simp [hpn0]
    exact fun hne => absurd (beq_iff_eq.mp hpn0) hne
  · have hmem' : s.entities.any (fun n => n.id == e.id) = false := by
      simpa using hmem
    simp only [hmem', Bool.false_eq_true, if_false]
    rw [List.filter_append]
    have h1 : s.entities.filter (fun n => n.id == e.id) = [] := by
      rw [List.filter_eq_nil_iff]
      intro n hn
      have := List.any_eq_false.mp hmem' n hn
      simpa using this
    simp [h1, entity_to_node]

/-- C4: entity writes are idempotent upserts keyed by id — saving twice with
the same entity equals saving once; with at most one stored node under the
id beforehand, exactly one node under the id remains and it carries the
written fields; saving `e1` and then `e` with the same id leaves exactly
one node carrying the fields of the latest save. -/
theorem save_entity_upsert (s : GraphState) (e : Entity) :
    save_entity (save_entity s e) e = save_entity s e
    ∧ (s.entities.countP (fun n => n.id == e.id) ≤ 1 →
        (save_entity s e).entities.filter (fun n => n.id == e.id)
          = [entity_to_node e])
    ∧ (∀ e1 : Entity, e1.id = e.id →
        s.entities.countP (fun n => n.id == e.id) ≤ 1 →
        (save_entity (save_entity s e1) e).entities.filter
            (fun n => n.id == e.id)
          = [entity_to_node e]) := by
  refine ⟨?_, save_entity_entities_filter s e, ?_⟩
  · obtain ⟨ents, rls, eps⟩ := s
    unfold save_entity
    by_cases hmem : ents.any (fun n => n.id == e.id)
    · simp only [hmem, if_true]
      have hmem2 : (ents.map
          (fun n => if n.id == e.id then entity_to_node e else n)).any
          (fun n => n.id == e.id) = true := by
        rw [List.any_map]
        obtain ⟨n, hn, hpn⟩ := List.any_eq_true.mp hmem
        exact List.any_eq_true.mpr ⟨n, hn, by simp [Function.comp, hpn, entity_to_node]⟩
      simp only [hmem2, if_true, GraphState.mk.injEq, and_true, true_and]
      rw [List.map_map]
      apply List.map_congr_left
      intro n _
      by_cases hn : n.id == e.id <;> simp [Function.comp, hn, entity_to_node]
    · have hmem' : ents.any (fun n => n.id == e.id) = false := by simpa using hmem
      simp only [hmem', Bool.false_eq_true, if_false]
      have hmem2 : ((ents ++ [entity_to_node e]).any (fun n => n.id == e.id))
          = true := by
        refine List.any_eq_true.mpr ⟨entity_to_node e, by simp, by simp [entity_to_node]⟩
      simp only [hmem2, if_true, GraphState.mk.injEq, and_true, true_and]
      rw [List.map_append]
      have h1 : ents.map (fun n => if n.id == e.id then entity_to_node e else n)
          = ents := by
        conv_rhs => rw [← List.map_id ents]
        apply List.map_congr_left
        intro n hn
        have := List.any_eq_false.mp hmem' n hn
        simp only [Bool.not_eq_true] at this
        simp [this]
      rw [h1]
      simp [entity_to_node]
  · intro e1 h1 hcount
    apply save_entity_entities_filter
    have : (save_entity s e1).entities.filter (fun n => n.id == e.id)
        = [entity_to_node e1] := by
      have := save_entity_entities_filter s e1
        (by simp only [h1]; exact hcount)
      rw [h1] at this
      exact this
    rw [List.countP_eq_length_filter, this]
    simp

/-- A concrete entity for witnesses. -/
def wEnt : Entity :=
  { id := "e1", user_id := "user:alice", name := "Alice", name_hash := "h1",
    entity_type := "person", summary := "likes hiking",
    embedding := some [1, 2], metadata := [("k", "v")],
    created_at := 0, updated_at := 0 }

/-- Witness for C4: a one-entity store; the second and third conjuncts are
exercised with the count hypothesis discharged on the empty store. -/
theorem save_entity_upsert_witness :
    (save_entity (save_entity ⟨[], [], []⟩ wEnt) wEnt
        = save_entity ⟨[], [], []⟩ wEnt)
    ∧ (save_entity ⟨[], [], []⟩ wEnt).entities.filter
        (fun n => n.id == wEnt.id) = [entity_to_node wEnt]
    ∧ (save_entity (save_entity ⟨[], [], []⟩ wEnt) wEnt).entities.filter
        (fun n => n.id == wEnt.id) = [entity_to_node wEnt] :=
  ⟨(save_entity_upsert ⟨[], [], []⟩ wEnt).1,
   (save_entity_upsert ⟨[], [], []⟩ wEnt).2.1 (by simp),
   (save_entity_upsert ⟨[], [], []⟩ wEnt).2.2 wEnt rfl (by simp)⟩

/-- C8: bulk delete returns a count equal to the number of the tenant's
nodes immediately before the call, detach-deletes them (every edge incident
to a deleted node is removed), and afterwards the tenant's entity listing is
empty; with every tenant-owned edge incident to a tenant-owned node (always
the case for data written through the pipeline), the tenant's relationship
listing is empty as well. -/
theorem delete_user_data_spec (s : GraphState) (uid : String) :
    (delete_user_data s uid).2 =
      s.entities.countP (fun n => n.user_id == uid)
        + s.episodes.countP (fun n => n.user_id == uid)
    ∧ (∀ limit, get_entities_by_user (delete_user_data s uid).1 uid limit = [])
    ∧ (∀ ed ∈ s.rels,
        (∃ n ∈ s.entities,
          (n.id = ed.source_id ∨ n.id = ed.target_id) ∧ n.user_id = uid) →
        ed ∉ (delete_user_data s uid).1.rels)
    ∧ ((∀ ed ∈ s.rels, ed.user_id = uid →
          ∃ n ∈ s.entities,
            (n.id = ed.source_id ∨ n.id = ed.target_id) ∧ n.user_id = uid) →
        ∀ limit,
          get_relationships_by_user (delete_user_data s uid).1 uid limit = []) := by
  refine ⟨rfl, ?_, ?_, ?_⟩
  · intro limit
    unfold get_entities_by_user delete_user_data
    have h1 : (s.entities.filter (fun n => !(n.user_id == uid))).filter
        (fun n => n.user_id == uid) = [] := by
      rw [List.filter_eq_nil_iff]
      intro n hn
      have := (List.mem_filter.mp hn).2
      simp only [Bool.not_eq_true'] at this
      simp [this]
    simp [h1]
  · intro ed hed hinc
    unfold delete_user_data
    intro hmem
    have := (List.mem_filter.mp hmem).2
    rw [Bool.not_eq_eq_eq_not, Bool.not_true, List.any_eq_false] at this
    obtain ⟨n, hn, hni, hnu⟩ := hinc
    have hcontra := this n hn
    simp only [Bool.and_eq_true, Bool.or_eq_true, beq_iff_eq, not_and, not_or] at hcontra
    rcases hni with hni | hni
    · exact absurd hnu (hcontra (Or.inl hni))
    · exact absurd hnu (hcontra (Or.inr hni))
  · intro hsupport limit
    unfold get_relationships_by_user
    have h1 : ((delete_user_data s uid).1.rels.filter (fun ed =>
        endpoints_exist (delete_user_data s uid).1 ed && ed.user_id == uid)) = [] := by
      rw [List.filter_eq_nil_iff]
      intro ed hed
      intro hcontra
      have hu : ed.user_id = uid := by
        have := (Bool.and_eq_true_iff.mp hcontra).2
        exact beq_iff_eq.mp this
      have hmem : ed ∈ s.rels := by
        unfold delete_user_data at hed
        exact (List.mem_filter.mp hed).1
      have hsup := hsupport ed hmem hu
      unfold delete_user_data at hed
      have hsurv := (List.mem_filter.mp hed).2
      rw [Bool.not_eq_eq_eq_not, Bool.not_true, List.any_eq_false] at hsurv
      obtain ⟨n, hn, hni, hnu⟩ := hsup
      have := hsurv n hn
      simp only [Bool.and_eq_true, Bool.or_eq_true, beq_iff_eq, not_and, not_or] at this
      rcases hni with hni | hni
      · exact (this (Or.inl hni)) hnu
      · exact (this (Or.inr hni)) hnu
    simp [h1]

/-- A concrete self-loop edge for witnesses. -/
def wEdge : RelEdge :=
  { id := "r1", user_id := "user:alice", source_id := "e1", target_id := "e1",
    relation_type := "knows", fact := "Alice knows Alice", fact_hash := "f1",
    embedding := [1], metadata := [], created_at := 0, updated_at := 0 }

/-- A concrete episode node for witnesses. -/
def wEpNode : EpisodeNode :=
  { id := "ep1", user_id := "user:alice", content := "", source := "message",
    entity_ids := ["e1"], relationship_ids := ["r1"], metadata := [],
    created_at := 0 }

/-- A concrete one-tenant store for witnesses. -/
def wState : GraphState :=
  { entities := [entity_to_node wEnt], rels := [wEdge], episodes := [wEpNode] }

/-- Witness for C8: a one-tenant store with one entity, one episode and one
self-loop edge; the count is 2, the listings are empty afterwards, and the
edge is gone. -/
theorem delete_user_data_spec_witness :
    (delete_user_data wState "user:alice").2 = 2
    ∧ get_entities_by_user (delete_user_data wState "user:alice").1
        "user:alice" 100 = []
    ∧ wEdge ∉ (delete_user_data wState "user:alice").1.rels
    ∧ get_relationships_by_user (delete_user_data wState "user:alice").1
        "user:alice" 100 = [] := by
  refine ⟨?_, ?_, ?_, ?_⟩
  · have := (delete_user_data_spec wState "user:alice").1
    rw [this]
    rfl
  · exact (delete_user_data_spec wState "user:alice").2.1 100
  · exact (delete_user_data_spec wState "user:alice").2.2.1 wEdge
      (by simp [wState])
      ⟨entity_to_node wEnt, by simp [wState], Or.inl rfl, rfl⟩
  · refine (delete_user_data_spec wState "user:alice").2.2.2 ?_ 100
    intro ed hed _
    have hw : ed = wEdge := by simpa [wState] using hed
    subst hw
    exact ⟨entity_to_node wEnt, by simp [wState], Or.inl rfl, rfl⟩

/-- C6: every completing `add` issues exactly one episode write; the
episode records exactly the ids of the entities and relationships persisted
by the call; and the episode write is the last operation of the trace, so
any proper prefix of the trace (an interrupted `add`) contains no episode
write — entities can be left without their episode, never an episode
without its entities. -/
theorem add_episode_last (new_entities : List Entity)
    (new_rels : List Relationship) (uid content : String)
    (store_content : Bool) (ep_id source : String) (meta : Meta) (ts : DT) :
    (add_trace new_entities new_rels uid content store_content ep_id source
        meta ts).countP StoreOp.isEp = 1
    ∧ (add_episode new_entities new_rels uid content store_content ep_id
        source meta ts).entity_ids = new_entities.map (fun e => e.id)
    ∧ (add_episode new_entities new_rels uid content store_content ep_id
        source meta ts).relationship_ids = new_rels.map (fun r => r.id)
    ∧ (add_trace new_entities new_rels uid content store_content ep_id source
        meta ts).getLast?
      = some (.save_ep (add_episode new_entities new_rels uid content
          store_content ep_id source meta ts))
    ∧ (∀ p q : List StoreOp,
        add_trace new_entities new_rels uid content store_content ep_id
            source meta ts = p ++ q →
        (StoreOp.save_ep (add_episode new_entities new_rels uid content
            store_content ep_id source meta ts)) ∈ p →
        p = add_trace new_entities new_rels uid content store_content ep_id
          source meta ts) := by
  set ep := add_episode new_entities new_rels uid content store_content
    ep_id source meta ts with hep
  set base := (new_entities.map StoreOp.save_ent)
    ++ (new_rels.map StoreOp.save_rel) with hbase
  have htr : add_trace new_entities new_rels uid content store_content ep_id
      source meta ts = base ++ [StoreOp.save_ep ep] := by
    simp [add_trace, hbase, hep]
  have hbase_no_ep : ∀ op ∈ base, StoreOp.isEp op = false := by
    intro op hop
    rcases List.mem_append.mp hop with hop | hop
    · obtain ⟨e, _, rfl⟩ := List.mem_map.mp hop
      rfl
    · obtain ⟨r, _, rfl⟩ := List.mem_map.mp hop
      rfl
  refine ⟨?_, rfl, rfl, ?_, ?_⟩
  · rw [htr, List.countP_append]
    have h0 : base.countP StoreOp.isEp = 0 := by
      rw [List.countP_eq_length_filter, List.length_eq_zero,
        List.filter_eq_nil_iff]
      intro op hop
      simp [hbase_no_ep op hop]
    rw [h0]
    rfl
  · rw [htr]
    simp
  · intro p q happ hmem
    rw [htr] at happ
    by_cases hq : q = []
    · subst hq
      rw [List.append_nil] at happ
      rw [htr, ← happ]
    · exfalso
      have hlen : p.length + q.length = base.length + 1 := by
        have := congrArg List.length happ
        simpa using this.symm
      have hqpos : 1 ≤ q.length := by
        cases q with
        | nil => exact absurd rfl hq
        | cons _ _ => simp
      have hple : p.length ≤ base.length := by omega
      have hptake : p = (base ++ [StoreOp.save_ep ep]).take p.length := by
        rw [happ]
        exact (List.take_left p q).symm
      rw [List.take_append_of_le_length hple] at hptake
      have hmem' : StoreOp.save_ep ep ∈ base.take p.length := hptake ▸ hmem
      have hmem'' : StoreOp.save_ep ep ∈ base :=
        List.mem_of_mem_take hmem'
      have := hbase_no_ep _ hmem''
      simp [StoreOp.isEp] at this

/-- A concrete relationship for witnesses. -/
def wRel : Relationship :=
  { id := "r1", user_id := "user:alice", source_id := "e1", target_id := "e1",
    relation_type := "knows", fact := "Alice knows Alice", fact_hash := "f1",
    embedding := some [1], metadata := [], created_at := 0, updated_at := 0 }

/-- Witness for C6: a one-entity, one-relationship `add` trace; its prefix
containing the episode write is the whole trace. -/
theorem add_episode_last_witness :
    (add_trace [wEnt] [wRel] "user:alice" "hello" true "ep1" "message" []
        0).countP StoreOp.isEp = 1
    ∧ (add_trace [wEnt] [wRel] "user:alice" "hello" true "ep1" "message" []
        0).getLast?
      = some (.save_ep (add_episode [wEnt] [wRel] "user:alice" "hello" true
          "ep1" "message" [] 0))
    ∧ ([.save_ent wEnt, .save_rel wRel,
        .save_ep (add_episode [wEnt] [wRel] "user:alice" "hello" true "ep1"
          "message" [] 0)] : List StoreOp)
      = add_trace [wEnt] [wRel] "user:alice" "hello" true "ep1" "message" [] 0 :=
  ⟨(add_episode_last [wEnt] [wRel] "user:alice" "hello" true "ep1" "message"
      [] 0).1,
   (add_episode_last [wEnt] [wRel] "user:alice" "hello" true "ep1" "message"
      [] 0).2.2.2.1,
   (add_episode_last [wEnt] [wRel] "user:alice" "hello" true "ep1" "message"
      [] 0).2.2.2.2
     ([.save_ent wEnt, .save_rel wRel,
       .save_ep (add_episode [wEnt] [wRel] "user:alice" "hello" true "ep1"
         "message" [] 0)]) []
     (by simp [add_trace, add_episode]) (by simp)⟩

theorem node_entity_roundtrip (e : Entity) (h : e.embedding ≠ some []) :
    node_to_entity (entity_to_node e) = e := by
  obtain ⟨eid, uid, nm, nh, et, sm, emb, md, ca, ua⟩ := e
  simp only [node_to_entity, entity_to_node, decode_embedding,
    Entity.mk.injEq, and_true, true_and]
  cases emb with
  | none => simp
  | some l =>
      cases l with
      | nil => simp at h
      | cons x xs => simp

theorem edge_rel_roundtrip (r : Relationship) (h : r.embedding ≠ some []) :
    edge_to_rel (rel_to_edge r) = r := by
  obtain ⟨rid, uid, sid, tid, rt, fc, fh, emb, md, ca, ua⟩ := r
  simp only [edge_to_rel, rel_to_edge, decode_embedding,
    Relationship.mk.injEq, and_true, true_and]
  cases emb with
  | none => simp
  | some l =>
      cases l with
      | nil => simp at h
      | cons x xs => simp

theorem node_episode_roundtrip (ep : Episode) :
    node_to_episode (episode_to_node ep) = ep := rfl

/-- C5 (amended): saving an Entity, Relationship or Episode and reading it
back by id returns a value field-equal to the one written, including when
the optional embedding and metadata are absent — provided a present
embedding is non-empty (an entity or relationship saved with an empty-list
embedding is read back with its embedding absent); a relationship
round-trips when its endpoints exist and no other edge carries its id. -/
theorem save_get_roundtrip :
    (∀ (s : GraphState) (e : Entity), e.embedding ≠ some [] →
      get_entity (save_entity s e) e.id = some e)
    ∧ (∀ (s : GraphState) (r : Relationship), r.embedding ≠ some [] →
        s.entities.any (fun n => n.id == r.source_id) = true →
        s.entities.any (fun n => n.id == r.target_id) = true →
        (∀ ed ∈ s.rels, ed.id ≠ r.id) →
        get_relationship (save_relationship s r) r.id = some r)
    ∧ (∀ (s : GraphState) (ep : Episode),
        get_episode (save_episode s ep) ep.id = some ep) := by
  refine ⟨?_, ?_, ?_⟩
  · intro s e hne
    unfold get_entity save_entity
    by_cases hmem : s.entities.any (fun n => n.id == e.id)
    · simp only [hmem, if_true]
      rw [find?_map_upsert (fun n => n.id == e.id) (entity_to_node e) _
        (by simp [entity_to_node])
        (fun a ha => by simp [ha])
        (fun a ha => by simp [ha])
        s.entities hmem]
      rw [Option.map_some', node_entity_roundtrip e hne]
    · have hmem' : s.entities.any (fun n => n.id == e.id) = false := by
        simpa using hmem
      simp only [hmem', Bool.false_eq_true, if_false]
      rw [find?_append_upsert (fun n => n.id == e.id) (entity_to_node e)
        s.entities (by simp [entity_to_node]) hmem']
      rw [Option.map_some', node_entity_roundtrip e hne]
  · intro s r hne hs ht hid
    unfold save_relationship
    have hcond : (s.entities.any (fun n => n.id == r.source_id)
        && s.entities.any (fun n => n.id == r.target_id)) = true := by
      simp [hs, ht]
    have hinner : s.rels.any (fun ed =>
        ed.id == r.id && ed.source_id == r.source_id
          && ed.target_id == r.target_id) = false := by
      rw [List.any_eq_false]
      intro ed hed
      simp only [Bool.and_eq_true, beq_iff_eq, not_and]
      intro hcontra
      exact absurd hcontra.1 (hid ed hed)
    simp only [hcond, if_true, hinner, Bool.false_eq_true, if_false]
    unfold get_relationship
    have hends : endpoints_exist
        { s with rels := s.rels ++ [rel_to_edge r] } (rel_to_edge r) = true := by
      simp only [endpoints_exist, rel_to_edge]
      simp [hs, ht]
    rw [show ({ s with rels := s.rels ++ [rel_to_edge r] } : GraphState).rels
      = s.rels ++ [rel_to_edge r] from rfl]
    rw [List.filter_append]
    have hfilter1 : ([rel_to_edge r].filter
        (endpoints_exist { s with rels := s.rels ++ [rel_to_edge r] }))
        = [rel_to_edge r] := by
      simp [hends]
    rw [hfilter1, List.find?_append]
    have hnone : (s.rels.filter
        (endpoints_exist { s with rels := s.rels ++ [rel_to_edge r] })).find?
        (fun ed => ed.id == r.id) = none := by
      rw [List.find?_eq_none]
      intro ed hed
      have hmem : ed ∈ s.rels := (List.mem_filter.mp hed).1
      simp [hid ed hmem]
    rw [hnone]
    simp only [Option.none_or, List.find?_cons]
    rw [show ((rel_to_edge r).id == r.id) = true from by simp [rel_to_edge]]
    show Option.map edge_to_rel (some (rel_to_edge r)) = some r
    rw [Option.map_some', edge_rel_roundtrip r hne]
  · intro s ep
    unfold get_episode save_episode
    by_cases hmem : s.episodes.any (fun n => n.id == ep.id)
    · simp only [hmem, if_true]
      rw [find?_map_upsert (fun n => n.id == ep.id) (episode_to_node ep) _
        (by simp [episode_to_node])
        (fun a ha => by simp [ha])
        (fun a ha => by simp [ha])
        s.episodes hmem]
      rfl
    · have hmem' : s.episodes.any (fun n => n.id == ep.id) = false := by
        simpa using hmem
      simp only [hmem', Bool.false_eq_true, if_false]
      rw [find?_append_upsert (fun n => n.id == ep.id) (episode_to_node ep)
        s.episodes (by simp [episode_to_node]) hmem']
      rfl

/-- A concrete episode for witnesses. -/
def wEp : Episode :=
  { id := "ep1", user_id := "user:alice", content := "hello",
    source := "message", entity_ids := ["e1"], relationship_ids := ["r1"],
    metadata := [], created_at := 0 }

/-- Witness for C5: the three round-trips on the empty store (the
relationship is written after its endpoint entity). -/
theorem save_get_roundtrip_witness :
    get_entity (save_entity ⟨[], [], []⟩ wEnt) wEnt.id = some wEnt
    ∧ get_relationship
        (save_relationship (save_entity ⟨[], [], []⟩ wEnt) wRel) wRel.id
      = some wRel
    ∧ get_episode (save_episode ⟨[], [], []⟩ wEp) wEp.id = some wEp :=
  ⟨save_get_roundtrip.1 ⟨[], [], []⟩ wEnt (by simp [wEnt]),
   save_get_roundtrip.2.1 (save_entity ⟨[], [], []⟩ wEnt) wRel
     (by simp [wRel])
     (by simp [save_entity, entity_to_node, wEnt, wRel])
     (by simp [save_entity, entity_to_node, wEnt, wRel])
     (by simp [save_entity]),
   save_get_roundtrip.2.2 ⟨[], [], []⟩ wEp⟩

/-- An entity carrying an empty-list embedding: the input on which the
round-trip claim fails. -/
def ceEnt : Entity :=
  { id := "e1", user_id := "user:alice", name := "Alice", name_hash := "h1",
    entity_type := "person", summary := "", embedding := some [],
    metadata := [], created_at := 0, updated_at := 0 }

/-- Counterexample to C5 as stated: an entity whose embedding is the empty
list is read back with its embedding absent (`None`), so the value read is
not field-equal to the value written. -/
theorem entity_roundtrip_counterexample :
    get_entity (save_entity ⟨[], [], []⟩ ceEnt) ceEnt.id ≠ some ceEnt := by
  intro h
  rw [show save_entity ⟨[], [], []⟩ ceEnt
      = ⟨[entity_to_node ceEnt], [], []⟩ from by
    simp [save_entity]] at h
  rw [show get_entity (⟨[entity_to_node ceEnt], [], []⟩ : GraphState) ceEnt.id
      = some (node_to_entity (entity_to_node ceEnt)) from by
    simp [get_entity, List.find?_cons,
      show ((entity_to_node ceEnt).id == ceEnt.id) = true from by
        simp [entity_to_node]]] at h
  have := Option.some.inj h
  have hemb := congrArg Entity.embedding this
  simp [node_to_entity, entity_to_node, decode_embedding, ceEnt] at hemb

theorem ranked_perm_map {α : Type} (l : List α) (f : α → ℝ) :
    ((((l.map (fun e => (e, f e))).mergeSort
        (fun x y => decide (y.2 ≤ x.2))).map Prod.fst)).Perm l := by
  refine ((List.mergeSort_perm (l.map (fun e => (e, f e)))
    (fun x y => decide (y.2 ≤ x.2))).map Prod.fst).trans ?_
  rw [List.map_map, show (Prod.fst ∘ fun e => (e, f e)) = id from rfl,
    List.map_id]

theorem ranked_pairwise {α : Type} (l : List (α × ℝ)) :
    (l.mergeSort (fun x y => decide (y.2 ≤ x.2))).Pairwise
      (fun x y => y.2 ≤ x.2) := by
  have h := @List.sorted_mergeSort (α × ℝ)
    (fun x y => decide (y.2 ≤ x.2))
    (fun a b c hab hbc => by
      simp only [decide_eq_true_eq] at *
      exact le_trans hbc hab)
    (fun a b => by
      simp only [Bool.or_eq_true, decide_eq_true_eq]
      exact le_total b.2 a.2)
    l
  exact h.imp (fun hab => by simpa using hab)

/-- C3: similarity search loads at most 500 of the tenant's candidates, the
ranking consists of exactly those candidates whose embedding is present
(items lacking one are skipped), the ranking is sorted by cosine similarity
in descending order, the returned list is its `limit`-prefix, and a
zero-norm vector scores 0 — for entities and for relationships alike. -/
theorem search_ranking_spec (s : GraphState) (q : List ℚ) (uid : String)
    (limit : ℕ) :
    search_entities s q uid limit
      = ((ranked_scored_entities s q uid).map Prod.fst).take limit
    ∧ (get_entities_by_user s uid 500).length ≤ 500
    ∧ ((ranked_scored_entities s q uid).map Prod.fst).Perm
        ((get_entities_by_user s uid 500).filter entity_has_embedding)
    ∧ (ranked_scored_entities s q uid).Pairwise (fun x y => y.2 ≤ x.2)
    ∧ (search_entities s q uid limit).length ≤ limit
    ∧ search_relationships s q uid limit
      = ((ranked_scored_rels s q uid).map Prod.fst).take limit
    ∧ (get_relationships_by_user s uid 500).length ≤ 500
    ∧ ((ranked_scored_rels s q uid).map Prod.fst).Perm
        ((get_relationships_by_user s uid 500).filter rel_has_embedding)
    ∧ (ranked_scored_rels s q uid).Pairwise (fun x y => y.2 ≤ x.2)
    ∧ (search_relationships s q uid limit).length ≤ limit
    ∧ (∀ v : List ℚ, sumSq v = 0 → falkor_cosine_similarity q v = 0) := by
  refine ⟨rfl, ?_, ?_, ?_, ?_, rfl, ?_, ?_, ?_, ?_,
    fun v hv => falkor_cosine_zero_norm q v (Or.inr hv)⟩
  · unfold get_entities_by_user
    rw [List.length_map]
    exact List.length_take_le _ _
  · exact ranked_perm_map _ _
  · exact ranked_pairwise _
  · unfold search_entities
    exact List.length_take_le _ _
  · unfold get_relationships_by_user
    rw [List.length_map]
    exact List.length_take_le _ _
  · exact ranked_perm_map _ _
  · exact ranked_pairwise _
  · unfold search_relationships
    exact List.length_take_le _ _

/-- Witness for C3: the zero-norm clause discharged at a concrete vector,
together with the length bound on the empty store. -/
theorem search_ranking_spec_witness :
    falkor_cosine_similarity [1] [0, 0] = 0
    ∧ (search_entities ⟨[], [], []⟩ [1] "user:alice" 5).length ≤ 5 :=
  ⟨(search_ranking_spec ⟨[], [], []⟩ [1] "user:alice" 5).2.2.2.2.2.2.2.2.2.2
     [0, 0] (by norm_num [sumSq]),
   (search_ranking_spec ⟨[], [], []⟩ [1] "user:alice" 5).2.2.2.2.1⟩

end AgMem
